import Mathlib

/-!
Verification of the drizzle-crud query-composition engine.

The TypeScript source is shallowly embedded: JavaScript runtime values
become the inductive `JVal`; drizzle SQL conditions (`eq`, `ne`, `gt`,
`gte`, `lt`, `lte`, `inArray`, `notInArray`, `like`, `ilike`, `isNull`,
`and`, `or`) become the deep AST `SQLExpr` with an evaluator over rows;
the filter compiler (src/filters.ts: `filtersToWhere`, `parseFilters`,
`parseFilterGroup`) and the per-entity operation pipeline
(src/crud/*.ts) become pure functions.  The storage collaborator is a
list of rows; every operation additionally returns the list of requests
it issued to the store, so that frame properties ("does not touch the
store") are expressible.
-/

/-- A JavaScript runtime value as it flows through the filter compiler and
the pipeline: numbers (modelled as integers), strings, booleans, `null`,
`undefined`, `Date` objects (by their timestamp), arrays and plain
objects (ordered key/value lists, as `Object.entries` exposes them). -/
inductive JVal where
  | vint (n : Int)
  | vstr (s : String)
  | vbool (b : Bool)
  | vnull
  | vundef
  | vdate (t : Int)
  | varr (xs : List JVal)
  | vobj (fields : List (String × JVal))
deriving Repr

mutual
/-- Structural equality of values (JS strict equality on primitives,
extended structurally to arrays and objects for SQL comparison). -/
def jeq : JVal → JVal → Bool
  | .vint a, .vint b => a == b
  | .vstr a, .vstr b => a == b
  | .vbool a, .vbool b => a == b
  | .vnull, .vnull => true
  | .vundef, .vundef => true
  | .vdate a, .vdate b => a == b
  | .varr a, .varr b => jeqList a b
  | .vobj a, .vobj b => jeqFields a b
  | _, _ => false

def jeqList : List JVal → List JVal → Bool
  | [], [] => true
  | x :: xs, y :: ys => jeq x y && jeqList xs ys
  | _, _ => false

def jeqFields : List (String × JVal) → List (String × JVal) → Bool
  | [], [] => true
  | (k, x) :: xs, (l, y) :: ys => k == l && jeq x y && jeqFields xs ys
  | _, _ => false
end

def isUndef : JVal → Bool
  | .vundef => true
  | _ => false

/-- A database row / a JS object: ordered field list.  Lookup of an
absent key yields `undefined`, as in JavaScript. -/
abbrev Row := List (String × JVal)

/-- `row[key]`: first binding wins, absent keys give `undefined`. -/
def rowGet : Row → String → JVal
  | [], _ => .vundef
  | (k, v) :: rest, f => if k = f then v else rowGet rest f

/-- JS object field assignment `row[key] = v`: overwrites the first
existing binding, otherwise appends. -/
def setField : Row → String → JVal → Row
  | [], f, v => [(f, v)]
  | (k, w) :: rest, f, v =>
    if k = f then (k, v) :: rest else (k, w) :: setField rest f v

/-- Assign several fields in order (an UPDATE ... SET list). -/
def setFields (r : Row) (kvs : List (String × JVal)) : Row :=
  kvs.foldl (fun acc kv => setField acc kv.1 kv.2) r

/-- The comparison operators of the drizzle conditions the source uses. -/
inductive CondOp where
  | ceq | cne | cgt | cgte | clt | clte | cin | cnotIn | clike | cilike | cisNull
deriving Repr, DecidableEq

/-- Deep embedding of a drizzle `SQL` boolean condition: an atomic
comparison of one column against a value, or an n-ary `and`/`or`. -/
inductive SQLExpr where
  | cond (field : String) (op : CondOp) (value : JVal)
  | sand (xs : List SQLExpr)
  | sor (xs : List SQLExpr)
deriving Repr

/-- SQL `LIKE` pattern matching: `%` matches any sequence, `_` any single
character, other characters match themselves. -/
def likeMatch : List Char → List Char → Bool
  | [], s => s.isEmpty
  | '%' :: ps, [] => likeMatch ps []
  | '%' :: ps, c :: s' => likeMatch ps (c :: s') || likeMatch ('%' :: ps) s'
  | _ :: _, [] => false
  | p :: ps, c :: s' => (if p = '_' then true else c == p) && likeMatch ps s'
termination_by pat s => pat.length + s.length
decreasing_by all_goals simp_arith

/-- Strict order on values: integers, dates and strings compare within
their own kind; mismatched kinds never compare (the condition is false). -/
def jlt : JVal → JVal → Bool
  | .vint a, .vint b => a < b
  | .vdate a, .vdate b => a < b
  | .vstr a, .vstr b => a < b
  | _, _ => false

def jle (a b : JVal) : Bool := jlt a b || jeq a b

def lowerStr (s : String) : String := String.mk (s.toList.map Char.toLower)

/-- Evaluate one atomic condition against a row. -/
def evalCond (r : Row) (f : String) (op : CondOp) (v : JVal) : Bool :=
  let x := rowGet r f
  match op with
  | .ceq => jeq x v
  | .cne => !jeq x v
  | .cgt => jlt v x
  | .cgte => jle v x
  | .clt => jlt x v
  | .clte => jle x v
  | .cin => match v with | .varr xs => xs.any (fun y => jeq x y) | w => jeq x w
  | .cnotIn => match v with | .varr xs => !xs.any (fun y => jeq x y) | w => !jeq x w
  | .clike => match x, v with
    | .vstr s, .vstr p => likeMatch p.toList s.toList
    | _, _ => false
  | .cilike => match x, v with
    | .vstr s, .vstr p => likeMatch (lowerStr p).toList (lowerStr s).toList
    | _, _ => false
  | .cisNull => jeq x .vnull || jeq x .vundef

mutual
/-- Evaluate a condition tree against a row. -/
def evalSQL (r : Row) : SQLExpr → Bool
  | .cond f op v => evalCond r f op v
  | .sand xs => evalAllL r xs
  | .sor xs => evalAnyL r xs

/-- Conjunction of a condition list. -/
def evalAllL (r : Row) : List SQLExpr → Bool
  | [] => true
  | c :: cs => evalSQL r c && evalAllL r cs

/-- Disjunction of a condition list. -/
def evalAnyL (r : Row) : List SQLExpr → Bool
  | [] => false
  | c :: cs => evalSQL r c || evalAnyL r cs
end

/-- An optional where-clause: `none` (drizzle `undefined`) restricts
nothing. -/
def evalWhere (r : Row) : Option SQLExpr → Bool
  | none => true
  | some c => evalSQL r c

theorem evalAllL_append (r : Row) (xs ys : List SQLExpr) :
    evalAllL r (xs ++ ys) = (evalAllL r xs && evalAllL r ys) := by
  induction xs with
  | nil => simp [evalAllL]
  | cons c cs ih => simp [evalAllL, ih, Bool.and_assoc]

/-- One `case` of the operator `switch` in `parseFilterGroup`:
a recognised operator key compiles to its condition, `in`/`notIn`
coerce a non-array value into a one-element array, every other key
contributes nothing. -/
def compileOp (field : String) (op : String) (v : JVal) : Option SQLExpr :=
  if op = "equals" then some (.cond field .ceq v)
  else if op = "not" then some (.cond field .cne v)
  else if op = "gt" then some (.cond field .cgt v)
  else if op = "gte" then some (.cond field .cgte v)
  else if op = "lt" then some (.cond field .clt v)
  else if op = "lte" then some (.cond field .clte v)
  else if op = "in" then
    some (.cond field .cin (match v with | .varr xs => .varr xs | w => .varr [w]))
  else if op = "notIn" then
    some (.cond field .cnotIn (match v with | .varr xs => .varr xs | w => .varr [w]))
  else if op = "like" then some (.cond field .clike v)
  else if op = "ilike" then some (.cond field .cilike v)
  else none

/-- The conditions contributed by one field entry: a plain object value
(not `null`, not an array, not a `Date`) is an operator map, everything
else compiles to an equality. -/
def condsOfEntry (field : String) (v : JVal) : List SQLExpr :=
  match v with
  | .vobj ops => ops.filterMap (fun p => compileOp field p.1 p.2)
  | w => [.cond field .ceq w]

/-- `parseFilterGroup(table, filters, allowedFilters)`: iterate the
entries in order; skip `undefined` values; skip keys outside a nonempty
allow-list; compile the rest (src/filters.ts lines 92-165).  The
`forEach`-and-push loop is modelled by structural recursion preserving
entry order. -/
def parseFilterGroup (allowed : List String) : List (String × JVal) → List SQLExpr
  | [] => []
  | (k, v) :: rest =>
    (if isUndef v then []
     else if !allowed.isEmpty && !allowed.contains k then []
     else condsOfEntry k v) ++ parseFilterGroup allowed rest

/-- One entry of an `AND`/`OR` array: compile it as a group, then
`groupConditions.length > 1 ? and(...groupConditions) : groupConditions[0]`
(an empty group yields `undefined`, dropped by `.filter(Boolean)`).
A non-object entry has no entries, like `Object.entries` on it. -/
def groupOf (allowed : List String) (g : JVal) : Option SQLExpr :=
  let cs := parseFilterGroup allowed (match g with | .vobj fs => fs | _ => [])
  if cs.length > 1 then some (.sand cs) else cs.head?

/-- The single condition contributed by the `AND` list: each entry
compiled per-group, groups combined with `and`; nothing when no group
survives. -/
def andPart (allowed : List String) (gs : List JVal) : List SQLExpr :=
  let acs := gs.filterMap (groupOf allowed)
  if acs.isEmpty then [] else [.sand acs]

/-- The single condition contributed by the `OR` list: per-entry groups
combined with `or`. -/
def orPart (allowed : List String) (gs : List JVal) : List SQLExpr :=
  let ocs := gs.filterMap (groupOf allowed)
  if ocs.isEmpty then [] else [.sor ocs]

/-- The JS `key in obj` test. -/
def hasKey : List (String × JVal) → String → Bool
  | [], _ => false
  | kv :: rest, k => kv.1 == k || hasKey rest k

/-- JS property access `obj[key]` as an optional value. -/
def lookupKey : List (String × JVal) → String → Option JVal
  | [], _ => none
  | kv :: rest, k => if kv.1 == k then some kv.2 else lookupKey rest k

/-- The `AND` branch contribution: present only when the key holds an
array (`filters.AND && Array.isArray(filters.AND)`). -/
def andKeyConds (allowed : List String) (fs : List (String × JVal)) : List SQLExpr :=
  match lookupKey fs "AND" with
  | some (.varr gs) => andPart allowed gs
  | _ => []

def orKeyConds (allowed : List String) (fs : List (String × JVal)) : List SQLExpr :=
  match lookupKey fs "OR" with
  | some (.varr gs) => orPart allowed gs
  | _ => []

/-- `parseFilters(table, filters, allowedFilters)` (src/filters.ts lines
33-90): when an `AND` or `OR` key is present, emit the combined `AND`
group, then the combined `OR` group, then the remaining plain fields as
an ordinary group; otherwise the whole expression is one ordinary
group. -/
def parseFilters (allowed : List String) : Option (List (String × JVal)) → List SQLExpr
  | none => []
  | some fs =>
    if hasKey fs "AND" || hasKey fs "OR" then
      andKeyConds allowed fs ++ orKeyConds allowed fs ++
        parseFilterGroup allowed (fs.filter (fun kv => kv.1 != "AND" && kv.1 != "OR"))
    else
      parseFilterGroup allowed fs

/-- `filtersToWhere`: `and` of all emitted conditions, `undefined` when
none. -/
def filtersToWhere (allowed : List String) (fs : Option (List (String × JVal))) :
    Option SQLExpr :=
  let cs := parseFilters allowed fs
  if cs.isEmpty then none else some (.sand cs)

/-- `SoftDeleteConfig` (src/types.ts): marker field plus optional deleted /
not-deleted values; `none` means the source-level default applies
(`new Date()` resp. `null`, via `??` in crud-factory.ts). -/
structure SoftDeleteCfg where
  field : String
  deletedValue : Option JVal := none
  notDeletedValue : Option JVal := none

/-- Per-call `OperationContext`: scope values, actor, validation bypass.
The per-call store override is omitted: all claims are about a single
store. -/
structure Ctx where
  scope : List (String × JVal) := []
  actor : JVal := .vundef
  skipValidation : Bool := false

/-- The per-entity configuration handed to `crudFactory`, with the source
defaults.  Validation schemas are modelled as total transforms (`none`
when no validation adapter is configured); hooks may return `undefined`
(`Option`), which the pipeline replaces by the validated data. -/
structure Cfg where
  scopeFilters : List (String × (JVal → JVal → Option SQLExpr)) := []
  softDelete : Option SoftDeleteCfg := none
  defaultPageSize : Nat := 20
  maxPageSize : Nat := 100
  allowedFilters : List String := []
  searchFields : List String := []
  insertSchema : Option (Row → Row) := none
  updateSchema : Option (Row → Row) := none
  beforeCreate : Option (Row → Option Row) := none
  beforeUpdate : Option (Row → Option Row) := none

/-- `context?.scope?.[key]`: absent context or key gives `undefined`. -/
def ctxScope (ctx : Option Ctx) (k : String) : JVal :=
  match ctx with
  | none => .vundef
  | some c => rowGet c.scope k

/-- `context?.actor`. -/
def ctxActor : Option Ctx → JVal
  | none => .vundef
  | some c => c.actor

def ctxSkip : Option Ctx → Bool
  | none => false
  | some c => c.skipValidation

/-- The non-`undefined` results of each configured scope-filter function
applied to the caller's scope value and actor (crud-factory.ts
`applyScopeFilters`, lines 128-144). -/
def scopeConds (cfg : Cfg) (ctx : Option Ctx) : List SQLExpr :=
  cfg.scopeFilters.filterMap (fun kf => kf.2 (ctxScope ctx kf.1) (ctxActor ctx))

/-- `applyScopeFilters(conditions, context)`: append each produced
condition. -/
def applyScopeFilters (cfg : Cfg) (ctx : Option Ctx) (conds : List SQLExpr) :
    List SQLExpr :=
  conds ++ scopeConds cfg ctx

/-- `softDelete.notDeletedValue ?? null` (`undefined` collapses to
`null`). -/
def sdNotDeleted (sd : SoftDeleteCfg) : JVal :=
  match sd.notDeletedValue with
  | none => .vnull
  | some .vundef => .vnull
  | some v => v

/-- `softDelete.deletedValue ?? new Date()`, with `now` the call-time
clock. -/
def sdDeleted (sd : SoftDeleteCfg) (now : Int) : JVal :=
  match sd.deletedValue with
  | none => .vdate now
  | some .vundef => .vdate now
  | some v => v

/-- The visibility condition `applySoftDeleteFilter` appends: nothing
without a soft-delete config or with `includeDeleted`; otherwise
`isNull(field)` when the not-deleted value is `null`, else
`eq(field, notDeletedValue)` (crud-factory.ts lines 146-159). -/
def softConds (cfg : Cfg) (includeDeleted : Bool) : List SQLExpr :=
  match cfg.softDelete with
  | none => []
  | some sd =>
    if includeDeleted then []
    else
      match sdNotDeleted sd with
      | .vnull => [.cond sd.field .cisNull .vnull]
      | v => [.cond sd.field .ceq v]

def applySoftDeleteFilter (cfg : Cfg) (conds : List SQLExpr) (includeDeleted : Bool) :
    List SQLExpr :=
  conds ++ softConds cfg includeDeleted

/-- `applySearch`: a `like`-disjunction over the configured search fields
when the search string is non-blank (crud-factory.ts lines 117-126). -/
def applySearch (cfg : Cfg) (conds : List SQLExpr) (search : Option String) :
    List SQLExpr :=
  match search with
  | none => conds
  | some s =>
    if s.trim ≠ "" ∧ ¬cfg.searchFields.isEmpty then
      conds ++ [.sor (cfg.searchFields.map
        (fun f => .cond f .clike (.vstr ("%" ++ s ++ "%"))))]
    else conds

/-- `conditions.length > 1 ? and(...conditions) : conditions[0]` — the
where-clause shape every non-list operation builds. -/
def whereOf (conds : List SQLExpr) : Option SQLExpr :=
  if conds.length > 1 then some (.sand conds) else conds.head?

def idCond (id : JVal) : SQLExpr := .cond "id" .ceq id

def inCond (ids : List JVal) : SQLExpr := .cond "id" .cin (.varr ids)

/-- The store: SELECT with a where-clause over the row list. -/
def selectWhere (db : List Row) (w : Option SQLExpr) : List Row :=
  db.filter (fun r => evalWhere r w)

/-- The store: UPDATE ... SET over the matching rows. -/
def updateSetWhere (db : List Row) (w : Option SQLExpr) (sets : List (String × JVal)) :
    List Row :=
  db.map (fun r => if evalWhere r w then setFields r sets else r)

/-- The store: DELETE of the matching rows. -/
def deleteRowsWhere (db : List Row) (w : Option SQLExpr) : List Row :=
  db.filter (fun r => !evalWhere r w)

/-- One request issued to the storage collaborator. -/
inductive StoreEvent where
  | sel (w : Option SQLExpr) (lim : Option Nat) (off : Option Nat)
  | countReq (w : Option SQLExpr)
  | ins (rows : List Row)
  | upd (w : Option SQLExpr) (sets : List (String × JVal))
  | del (w : Option SQLExpr)

/-- Outcome of one pipeline call: the returned value or thrown error, the
requests issued to the store in order, and the store contents after the
call. -/
structure OpOut (α : Type) where
  result : Except String α
  events : List StoreEvent
  db : List Row

/-- `createValidate` (src/crud/utils.ts): `context.skipValidation` skips
everything, otherwise the schema (when one is configured) transforms the
data.  The `hooks.validate` gate and schema rejection are not exercised
by any claim. -/
def runValidate (schema : Option (Row → Row)) (ctx : Option Ctx) (data : Row) : Row :=
  if ctxSkip ctx then data
  else match schema with
  | some s => s data
  | none => data

/-- The hook stage shared by create/update: the hook's result replaces the
validated data, `?? validatedData` when the hook returns `undefined`. -/
def hookStage (hook : Option (Row → Option Row)) (validated : Row) : Row :=
  match hook with
  | some h => (h validated).getD validated
  | none => validated

/-- The conditions of `deleteOne`/`restore`/`permanentDelete`'s write:
`[eq(table.id, id)]` plus scope filters. -/
def idScopeConds (cfg : Cfg) (ctx : Option Ctx) (id : JVal) : List SQLExpr :=
  applyScopeFilters cfg ctx [idCond id]

/-- The conditions of `update`'s write: id, scope filters, then the
soft-delete visibility filter (`includeDeleted = false`). -/
def updateConds (cfg : Cfg) (ctx : Option Ctx) (id : JVal) : List SQLExpr :=
  applySoftDeleteFilter cfg (idScopeConds cfg ctx id) false

/-- The conditions of the bulk writes: `inArray(table.id, ids)` plus scope
filters. -/
def bulkIdConds (cfg : Cfg) (ctx : Option Ctx) (ids : List JVal) : List SQLExpr :=
  applyScopeFilters cfg ctx [inCond ids]

/-- The conditions of `findOne`: the caller's equality conditions, scope
filters, then the soft-delete visibility filter. -/
def findOneConds (cfg : Cfg) (ctx : Option Ctx) (conds0 : List SQLExpr)
    (includeDeleted : Bool) : List SQLExpr :=
  applySoftDeleteFilter cfg (applyScopeFilters cfg ctx conds0) includeDeleted

/-- `create` (src/crud/create.ts): validate, hook, one INSERT returning
the inserted row.  Store-generated column defaults are outside the
model. -/
def createOp (cfg : Cfg) (data : Row) (ctx : Option Ctx) (db : List Row) : OpOut Row :=
  let validated := runValidate cfg.insertSchema ctx data
  let transformed := hookStage cfg.beforeCreate validated
  { result := .ok transformed, events := [.ins [transformed]], db := db ++ [transformed] }

structure BulkCreateOut where
  success : Bool
  count : Nat
  items : List Row

/-- `bulkCreate` (src/crud/bulkCreate.ts): an empty input returns
`{success:true, count:0, items:[]}` before any store access; otherwise
validate and hook each item and issue one batched INSERT. -/
def bulkCreateOp (cfg : Cfg) (datas : List Row) (ctx : Option Ctx) (db : List Row) :
    OpOut BulkCreateOut :=
  if datas.isEmpty then
    { result := .ok ⟨true, 0, []⟩, events := [], db := db }
  else
    let transformed := datas.map
      (fun d => hookStage cfg.beforeCreate (runValidate cfg.insertSchema ctx d))
    { result := .ok ⟨true, transformed.length, transformed⟩,
      events := [.ins transformed], db := db ++ transformed }

/-- `findOne` (src/crud/findOne.ts): equality conditions from the
non-`undefined` entries of the `where` object; zero conditions is a
usage error; scope and soft-delete filters are appended; SELECT with
limit 1. -/
def findOneOp (cfg : Cfg) (whereObj : Row) (includeDeleted : Bool) (ctx : Option Ctx)
    (db : List Row) : OpOut (Option Row) :=
  let conds0 := whereObj.filterMap
    (fun kv => if isUndef kv.2 then none else some (SQLExpr.cond kv.1 .ceq kv.2))
  if conds0.isEmpty then
    { result := .error "findOne requires at least one search condition",
      events := [], db := db }
  else
    let w := whereOf (findOneConds cfg ctx conds0 includeDeleted)
    { result := .ok ((selectWhere db w).head?),
      events := [.sel w (some 1) none], db := db }

/-- `ListParams` (src/types.ts) plus the undocumented raw `where` escape
hatch the list method accepts.  `orderBy` only permutes the returned
page and is not modelled. -/
structure ListParams where
  page : Option Nat := none
  perPage : Option Nat := none
  search : Option String := none
  filters : Option (List (String × JVal)) := none
  includeDeleted : Bool := false
  whereExtra : Option SQLExpr := none

/-- JS `x || d` on numbers: `0` (and absence) falls back to the default. -/
def jsOr (o : Option Nat) (d : Nat) : Nat :=
  match o with
  | some n => if n = 0 then d else n
  | none => d

/-- `Math.ceil(a / b)` on naturals. -/
def ceilDiv (a b : Nat) : Nat := (a + b - 1) / b

/-- The list params after the validation stage (no validation adapter ⇒
unchanged). -/
def validatedList (schema : Option (ListParams → ListParams)) (ctx : Option Ctx)
    (p : ListParams) : ListParams :=
  if ctxSkip ctx then p
  else match schema with
  | some s => s p
  | none => p

/-- The where-conditions of `list` (src/crud/list.ts lines 199-217): raw
`where`, compiled filters, search, scope filters, soft-delete filter, in
that order.  The raw `where` is read from the unvalidated params, the
rest from the validated ones, as in the source. -/
def listConds (cfg : Cfg) (lschema : Option (ListParams → ListParams)) (ctx : Option Ctx)
    (p : ListParams) : List SQLExpr :=
  let v := validatedList lschema ctx p
  let base := (match p.whereExtra with | some w => [w] | none => []) ++
    parseFilters cfg.allowedFilters v.filters
  applySoftDeleteFilter cfg
    (applyScopeFilters cfg ctx (applySearch cfg base v.search)) v.includeDeleted

structure PaginatedOut where
  hasNextPage : Bool
  hasPreviousPage : Bool
  page : Nat
  perPage : Nat
  results : List Row
  totalItems : Nat
  totalPages : Nat

/-- `conditions.length > 0 ? and(...conditions) : undefined` — the list
method's where-clause (also used, with the same conditions, by its count
query). -/
def listWhereClause (cfg : Cfg) (lschema : Option (ListParams → ListParams))
    (ctx : Option Ctx) (p : ListParams) : Option SQLExpr :=
  let conds := listConds cfg lschema ctx p
  if conds.isEmpty then none else some (SQLExpr.sand conds)

/-- `Math.min(validatedParams.perPage || defaultPageSize, maxPageSize)`. -/
def effPerPage (cfg : Cfg) (lschema : Option (ListParams → ListParams))
    (ctx : Option Ctx) (p : ListParams) : Nat :=
  min (jsOr (validatedList lschema ctx p).perPage cfg.defaultPageSize) cfg.maxPageSize

/-- `validatedParams.page || 1`. -/
def effPage (lschema : Option (ListParams → ListParams)) (ctx : Option Ctx)
    (p : ListParams) : Nat :=
  jsOr (validatedList lschema ctx p).page 1

/-- `list` (src/crud/list.ts): compose conditions, clamp the page size,
run the data query with limit/offset and the count query with the same
conditions, and derive the pagination metadata. -/
def listOp (cfg : Cfg) (lschema : Option (ListParams → ListParams)) (p : ListParams)
    (ctx : Option Ctx) (db : List Row) : OpOut PaginatedOut :=
  let w := listWhereClause cfg lschema ctx p
  let perPage := effPerPage cfg lschema ctx p
  let page := effPage lschema ctx p
  let offset := (page - 1) * perPage
  let rows := selectWhere db w
  let data := (rows.drop offset).take perPage
  let totalItems := rows.length
  let totalPages := ceilDiv totalItems perPage
  { result := .ok ⟨decide (page < totalPages), decide (page > 1), page, perPage,
      data, totalItems, totalPages⟩,
    events := [.sel w (some perPage) (some offset), .countReq w], db := db }

/-- The effective update payload: validation then the `beforeUpdate`
hook. -/
def updateTransformed (cfg : Cfg) (ctx : Option Ctx) (updates : Row) : Row :=
  hookStage cfg.beforeUpdate (runValidate cfg.updateSchema ctx updates)

/-- `update` (src/crud/update.ts lines 49-101): an empty effective payload
short-circuits to a SELECT by id alone (no scope, no soft-delete) and
returns its first row; otherwise one UPDATE under id+scope+soft-delete
conditions, then a re-SELECT by id alone, failing when it finds
nothing. -/
def updateOp (cfg : Cfg) (id : JVal) (updates : Row) (ctx : Option Ctx) (db : List Row) :
    OpOut (Option Row) :=
  let transformed := updateTransformed cfg ctx updates
  if transformed.isEmpty then
    { result := .ok ((selectWhere db (some (idCond id))).head?),
      events := [.sel (some (idCond id)) (some 1) none], db := db }
  else
    let w := whereOf (updateConds cfg ctx id)
    let db1 := updateSetWhere db w transformed
    let evs := [StoreEvent.upd w transformed, .sel (some (idCond id)) (some 1) none]
    match (selectWhere db1 (some (idCond id))).head? with
    | some r => { result := .ok (some r), events := evs, db := db1 }
    | none => { result := .error "Record with id not found", events := evs, db := db1 }

structure SuccessOut where
  success : Bool

structure CountOut where
  success : Bool
  count : Nat

/-- `deleteOne` (src/crud/deleteOne.ts lines 37-65): id+scope conditions;
with soft delete an UPDATE marking the row, else a DELETE; always
`{success:true}`. -/
def deleteOneOp (cfg : Cfg) (now : Int) (id : JVal) (ctx : Option Ctx) (db : List Row) :
    OpOut SuccessOut :=
  let w := whereOf (idScopeConds cfg ctx id)
  match cfg.softDelete with
  | some sd =>
    let dv := sdDeleted sd now
    { result := .ok ⟨true⟩, events := [.upd w [(sd.field, dv)]],
      db := updateSetWhere db w [(sd.field, dv)] }
  | none =>
    { result := .ok ⟨true⟩, events := [.del w], db := deleteRowsWhere db w }

/-- `restore` (src/crud/deleteOne.ts lines 104-134): requires soft delete;
UPDATE ... RETURNING under id+scope conditions; `success` is whether any
row matched. -/
def restoreOp (cfg : Cfg) (id : JVal) (ctx : Option Ctx) (db : List Row) :
    OpOut SuccessOut :=
  match cfg.softDelete with
  | none =>
    { result := .error "Restore operation requires soft delete to be configured",
      events := [], db := db }
  | some sd =>
    let ndv := sdNotDeleted sd
    let w := whereOf (idScopeConds cfg ctx id)
    let matched := selectWhere db w
    { result := .ok ⟨!matched.isEmpty⟩, events := [.upd w [(sd.field, ndv)]],
      db := updateSetWhere db w [(sd.field, ndv)] }

/-- `permanentDelete` (src/crud/permanentDelete.ts lines 35-63): existence
check by id alone (limit 1), not-found error when absent, then a physical
DELETE under id+scope conditions. -/
def permanentDeleteOp (cfg : Cfg) (id : JVal) (ctx : Option Ctx) (db : List Row) :
    OpOut SuccessOut :=
  let ex := selectWhere db (some (idCond id))
  let ev0 := [StoreEvent.sel (some (idCond id)) (some 1) none]
  if ex.isEmpty then
    { result := .error "Record with id not found", events := ev0, db := db }
  else
    let w := whereOf (idScopeConds cfg ctx id)
    { result := .ok ⟨true⟩, events := ev0 ++ [.del w], db := deleteRowsWhere db w }

/-- `bulkDelete` (src/crud/bulkDelete.ts): count the rows whose id is in
`ids` (no scope filter on this SELECT); zero matches returns
`{success:true, count:0}`; otherwise one write under ids+scope
conditions — soft-delete UPDATE or physical DELETE — and the pre-scope
count is returned. -/
def bulkDeleteOp (cfg : Cfg) (now : Int) (ids : List JVal) (ctx : Option Ctx)
    (db : List Row) : OpOut CountOut :=
  let inC := inCond ids
  let existing := selectWhere db (some inC)
  let ev0 := [StoreEvent.sel (some inC) none none]
  if existing.isEmpty then
    { result := .ok ⟨true, 0⟩, events := ev0, db := db }
  else
    let w := whereOf (bulkIdConds cfg ctx ids)
    match cfg.softDelete with
    | some sd =>
      let dv := sdDeleted sd now
      { result := .ok ⟨true, existing.length⟩, events := ev0 ++ [.upd w [(sd.field, dv)]],
        db := updateSetWhere db w [(sd.field, dv)] }
    | none =>
      { result := .ok ⟨true, existing.length⟩, events := ev0 ++ [.del w],
        db := deleteRowsWhere db w }

/-- `bulkRestore` (src/crud/bulkRestore.ts): requires soft delete; one
UPDATE clearing the marker under ids+scope conditions; the driver
reports no row count on SQLite, so `result.rowCount || ids.length`
returns `ids.length`. -/
def bulkRestoreOp (cfg : Cfg) (ids : List JVal) (ctx : Option Ctx) (db : List Row) :
    OpOut CountOut :=
  match cfg.softDelete with
  | none =>
    { result := .error "Bulk restore operation requires soft delete to be configured",
      events := [], db := db }
  | some sd =>
    let ndv := sdNotDeleted sd
    let w := whereOf (bulkIdConds cfg ctx ids)
    { result := .ok ⟨true, ids.length⟩, events := [.upd w [(sd.field, ndv)]],
      db := updateSetWhere db w [(sd.field, ndv)] }


theorem ceilDivZero (b : Nat) : ceilDiv 0 b = 0 := by
  unfold ceilDiv
  cases b with
  | zero => rfl
  | succ n => simp [Nat.div_eq_of_lt]

/-- C7 (as stated, refuted): `bulkDelete([])` does reach the store: it
issues the id-existence SELECT (with an `inArray` over no values) before
returning `{success:true, count:0}`.  Only `bulkCreate([])` is
store-free. -/
theorem C7_counterexample :
    (bulkDeleteOp {} 0 [] none [[("id", JVal.vint 1)]]).events =
      [StoreEvent.sel (some (inCond [])) none none] ∧
    (bulkDeleteOp {} 0 [] none [[("id", JVal.vint 1)]]).result = .ok ⟨true, 0⟩ ∧
    (bulkCreateOp {} [] none [[("id", JVal.vint 1)]]).events = [] := by
  exact ⟨rfl, rfl, rfl⟩

/-- C7 (amended): `bulkCreate([])` returns `{success:true, count:0,
items:[]}` without any store request; `bulkDelete([])` returns
`{success:true, count:0}` and issues no write, but performs exactly one
read — the id-existence SELECT — and leaves the store unchanged. -/
theorem C7_bulk_empty_short_circuit (cfg : Cfg) (now : Int) (ctx : Option Ctx)
    (db : List Row) :
    bulkCreateOp cfg [] ctx db = { result := .ok ⟨true, 0, []⟩, events := [], db := db } ∧
    (bulkDeleteOp cfg now [] ctx db).result = .ok ⟨true, 0⟩ ∧
    (bulkDeleteOp cfg now [] ctx db).db = db ∧
    (bulkDeleteOp cfg now [] ctx db).events = [.sel (some (inCond [])) none none] := by
  have hsel : selectWhere db (some (inCond [])) = [] := by
    simp [selectWhere, evalWhere, evalSQL, evalCond, inCond, List.filter_eq_nil_iff]
  refine ⟨rfl, ?_, ?_, ?_⟩ <;> simp [bulkDeleteOp, hsel]

/-- C5 (as stated, refuted): a list call with `totalItems = 0` and
requested `page = 2` returns `hasPreviousPage = true`, because the code
computes `hasPreviousPage = page > 1` regardless of `totalItems`. -/
theorem C5_counterexample :
    (listOp {} none { page := some 2 } none []).result =
      .ok { hasNextPage := false, hasPreviousPage := true, page := 2, perPage := 20,
            results := [], totalItems := 0, totalPages := 0 } := by
  rfl

/-- C5 (amended): whenever the count query returns `totalItems = 0`, the
response has `totalPages = 0` and `hasNextPage = false` for every
requested page, while `hasPreviousPage` is `page > 1` (false only for
requested pages at most 1). -/
theorem C5_zero_total_items (cfg : Cfg) (lschema : Option (ListParams → ListParams))
    (p : ListParams) (ctx : Option Ctx) (db : List Row)
    (hz : (listOp cfg lschema p ctx db).result.map (·.totalItems) = .ok 0) :
    (listOp cfg lschema p ctx db).result.map (·.totalPages) = .ok 0 ∧
    (listOp cfg lschema p ctx db).result.map (·.hasNextPage) = .ok false ∧
    (listOp cfg lschema p ctx db).result.map (·.hasPreviousPage) =
      .ok (decide (effPage lschema ctx p > 1)) := by
  simp only [listOp, Except.map, Except.ok.injEq] at hz ⊢
  rw [hz]
  simp [ceilDivZero]

/-- C5 witness: the amended statement holds for a page-3 request over an
empty store. -/
theorem C5_zero_total_items_witness :
    (listOp {} none { page := some 3 } none []).result.map (·.totalPages) = .ok 0 ∧
    (listOp {} none { page := some 3 } none []).result.map (·.hasNextPage) = .ok false ∧
    (listOp {} none { page := some 3 } none []).result.map (·.hasPreviousPage) =
      .ok (decide (effPage none none { page := some 3 } > 1)) :=
  C5_zero_total_items {} none { page := some 3 } none [] rfl

/-- C6 (as stated, refuted): with `perPage = 0` the effective page size is
the default (20), not `min(params.perPage ?? defaultPageSize,
maxPageSize) = 0`: the source uses JS `||`, which treats 0 as absent. -/
theorem C6_counterexample :
    (listOp {} none { perPage := some 0 } none []).result =
      .ok { hasNextPage := false, hasPreviousPage := false, page := 1, perPage := 20,
            results := [], totalItems := 0, totalPages := 0 } ∧
    min (((some 0 : Option Nat)).getD ({} : Cfg).defaultPageSize) ({} : Cfg).maxPageSize
      = 0 := by
  exact ⟨rfl, rfl⟩

/-- C6 (amended): the effective page size is
`min(perPage || defaultPageSize, maxPageSize)` over the validated params
(JS `||`: zero or absent falls back to the default) — in particular any
requested `perPage > maxPageSize` is clamped to `maxPageSize` — the
effective page is `page || 1`, and the data query is issued with limit
`perPage` and offset `(page - 1) * perPage`. -/
theorem C6_pagination_bounds (cfg : Cfg) (lschema : Option (ListParams → ListParams))
    (p : ListParams) (ctx : Option Ctx) (db : List Row) :
    (listOp cfg lschema p ctx db).result.map (·.perPage) =
      .ok (min (jsOr (validatedList lschema ctx p).perPage cfg.defaultPageSize)
        cfg.maxPageSize) ∧
    (listOp cfg lschema p ctx db).result.map (·.page) =
      .ok (jsOr (validatedList lschema ctx p).page 1) ∧
    (listOp cfg lschema p ctx db).events =
      [.sel (listWhereClause cfg lschema ctx p) (some (effPerPage cfg lschema ctx p))
        (some ((effPage lschema ctx p - 1) * effPerPage cfg lschema ctx p)),
       .countReq (listWhereClause cfg lschema ctx p)] := by
  exact ⟨rfl, rfl, rfl⟩

/-- C4 (as stated, refuted): with the configured allow-list empty, a field
outside it still compiles to a predicate — the compiler treats an empty
allow-list as "no restriction". -/
theorem C4_counterexample :
    parseFilterGroup [] [("name", JVal.vint 5)] =
      [SQLExpr.cond "name" .ceq (.vint 5)] ∧
    "name" ∉ ([] : List String) := by
  exact ⟨rfl, by simp⟩

/-- C4 (amended): the group compiler never throws and compiles exactly as
if every entry with an `undefined` value, and — when the allow-list is
nonempty — every entry whose key is outside it, had been removed; an
empty allow-list permits all fields; and every operator key outside the
ten recognised ones contributes no predicate. -/
theorem C4_unknown_silently_dropped (allowed : List String)
    (fs : List (String × JVal)) :
    (parseFilterGroup allowed fs =
      parseFilterGroup allowed (fs.filter
        (fun kv => !isUndef kv.2 && (allowed.isEmpty || allowed.contains kv.1)))) ∧
    (∀ f op v, op ∉ ["equals", "not", "gt", "gte", "lt", "lte", "in", "notIn",
        "like", "ilike"] → compileOp f op v = none) := by
  constructor
  · induction fs with
    | nil => rfl
    | cons kv rest ih =>
      obtain ⟨k, v⟩ := kv
      by_cases hk : k ∈ allowed <;> cases hu : isUndef v <;>
        cases h1 : allowed.isEmpty <;>
        simp [parseFilterGroup, List.filter_cons, hu, h1, hk, ih]
  · intro f op v hop
    simp only [List.mem_cons, List.not_mem_nil, or_false, not_or] at hop
    obtain ⟨h1, h2, h3, h4, h5, h6, h7, h8, h9, h10⟩ := hop
    simp [compileOp, h1, h2, h3, h4, h5, h6, h7, h8, h9, h10]

/-- C4 witness: a bogus operator key compiles to nothing. -/
theorem C4_unknown_silently_dropped_witness :
    compileOp "age" "between" (JVal.vint 7) = none :=
  (C4_unknown_silently_dropped [] []).2 "age" "between" (JVal.vint 7) (by decide)

theorem hasKey_of_lookup (fs : List (String × JVal)) (k : String) (v : JVal)
    (h : lookupKey fs k = some v) : hasKey fs k = true := by
  induction fs with
  | nil => simp [lookupKey] at h
  | cons kv rest ih =>
    by_cases hk : (kv.1 == k) = true
    · simp [hasKey, hk]
    · have hk2 : (kv.1 == k) = false := by simpa using hk
      simp only [lookupKey, hk2, Bool.false_eq_true, if_false] at h
      simp [hasKey, hk2, ih h]

/-- C3: when a filter expression carries an `AND` list, an `OR` list and
further plain fields, the compiled where-clause is the conjunction of
three parts — the `AND` of the per-entry `AND` groups, the `OR` of the
per-entry `OR` groups, and the plain-field group — so all three compose
conjunctively. -/
theorem C3_and_or_plain_conjunction (allowed : List String)
    (fs : List (String × JVal)) (gAND gOR : List JVal) (row : Row)
    (hA : lookupKey fs "AND" = some (.varr gAND))
    (hO : lookupKey fs "OR" = some (.varr gOR)) :
    evalWhere row (filtersToWhere allowed (some fs)) =
      (evalAllL row (andPart allowed gAND) &&
       (evalAllL row (orPart allowed gOR) &&
        evalAllL row (parseFilterGroup allowed
          (fs.filter (fun kv => kv.1 != "AND" && kv.1 != "OR"))))) := by
  have hhas : hasKey fs "AND" = true := hasKey_of_lookup fs "AND" _ hA
  have hand : andKeyConds allowed fs = andPart allowed gAND := by
    simp only [andKeyConds, hA]
  have hor : orKeyConds allowed fs = orPart allowed gOR := by
    simp only [orKeyConds, hO]
  have hsplit : parseFilters allowed (some fs) =
      andPart allowed gAND ++ orPart allowed gOR ++
        parseFilterGroup allowed
          (fs.filter (fun kv => kv.1 != "AND" && kv.1 != "OR")) := by
    unfold parseFilters
    simp [hhas, hand, hor]
  unfold filtersToWhere
  rw [hsplit]
  by_cases he : (andPart allowed gAND ++ orPart allowed gOR ++
      parseFilterGroup allowed
        (fs.filter (fun kv => kv.1 != "AND" && kv.1 != "OR"))).isEmpty = true
  · rcases List.append_eq_nil.mp (List.isEmpty_iff.mp he) with ⟨hao, hp⟩
    rcases List.append_eq_nil.mp hao with ⟨ha2, ho2⟩
    simp [he, ha2, ho2, hp, evalWhere, evalAllL]
  · simp only [he, Bool.false_eq_true, if_false]
    simp [evalWhere, evalSQL, evalAllL_append, Bool.and_assoc]

/-- C3 witness: the conjunction shape at a concrete expression with one
`AND` entry, one `OR` entry and one plain field. -/
theorem C3_and_or_plain_conjunction_witness :
    evalWhere [("a", JVal.vint 1), ("b", JVal.vint 2), ("c", JVal.vint 3)]
      (filtersToWhere []
        (some [("AND", JVal.varr [JVal.vobj [("a", JVal.vint 1)]]),
               ("OR", JVal.varr [JVal.vobj [("b", JVal.vint 2)]]),
               ("c", JVal.vint 3)])) =
      (evalAllL [("a", JVal.vint 1), ("b", JVal.vint 2), ("c", JVal.vint 3)]
        (andPart [] [JVal.vobj [("a", JVal.vint 1)]]) &&
       (evalAllL [("a", JVal.vint 1), ("b", JVal.vint 2), ("c", JVal.vint 3)]
         (orPart [] [JVal.vobj [("b", JVal.vint 2)]]) &&
        evalAllL [("a", JVal.vint 1), ("b", JVal.vint 2), ("c", JVal.vint 3)]
          (parseFilterGroup []
            ([("AND", JVal.varr [JVal.vobj [("a", JVal.vint 1)]]),
              ("OR", JVal.varr [JVal.vobj [("b", JVal.vint 2)]]),
              ("c", JVal.vint 3)].filter
              (fun kv => kv.1 != "AND" && kv.1 != "OR"))))) :=
  C3_and_or_plain_conjunction [] _ _ _ _ rfl rfl

/-- C8: when the effective update payload (after validation and the
`beforeUpdate` hook) is empty, `update` issues no write: its only store
request is a SELECT whose predicate is the id equality alone — no scope
and no soft-delete conditions — the store is unchanged, and the first
row of that fallback read is returned. -/
theorem C8_update_empty_payload (cfg : Cfg) (id : JVal) (updates : Row)
    (ctx : Option Ctx) (db : List Row)
    (h : (updateTransformed cfg ctx updates).isEmpty = true) :
    updateOp cfg id updates ctx db =
      { result := .ok ((selectWhere db (some (idCond id))).head?),
        events := [.sel (some (idCond id)) (some 1) none], db := db } := by
  unfold updateOp
  simp [h]

/-- C8 witness: a `beforeUpdate` hook that empties the payload makes
`update` return the stored row with no write issued. -/
theorem C8_update_empty_payload_witness :
    updateOp { beforeUpdate := some (fun _ => some []) } (JVal.vint 1)
        [("name", JVal.vstr "x")] none [[("id", JVal.vint 1), ("name", JVal.vstr "old")]] =
      { result := .ok ((selectWhere [[("id", JVal.vint 1), ("name", JVal.vstr "old")]]
          (some (idCond (JVal.vint 1)))).head?),
        events := [.sel (some (idCond (JVal.vint 1))) (some 1) none],
        db := [[("id", JVal.vint 1), ("name", JVal.vstr "old")]] } :=
  C8_update_empty_payload { beforeUpdate := some (fun _ => some []) } (JVal.vint 1)
    [("name", JVal.vstr "x")] none [[("id", JVal.vint 1), ("name", JVal.vstr "old")]] rfl

/-- C2: the composed predicate of `findOne`, `list`, `update`,
`deleteOne`/`restore`/`permanentDelete` (via `idScopeConds`) and
`bulkDelete`/`bulkRestore` (via `bulkIdConds`) is the operation's base
conditions followed by exactly the non-`undefined` scope-filter results,
followed (where applicable) by the soft-delete visibility condition;
`create` and `bulkCreate` are invariant under arbitrary changes to the
configured scope filters and to the caller's scope, so scope predicates
are never applied to them. -/
theorem C2_scope_composition (cfg : Cfg) (ctx : Option Ctx) (id : JVal)
    (ids : List JVal) (conds0 : List SQLExpr) (incD : Bool)
    (lschema : Option (ListParams → ListParams)) (p : ListParams)
    (data : Row) (datas : List Row) (db : List Row) (c : Ctx)
    (sf : List (String × (JVal → JVal → Option SQLExpr)))
    (sc : List (String × JVal)) :
    (findOneConds cfg ctx conds0 incD =
      conds0 ++ scopeConds cfg ctx ++ softConds cfg incD) ∧
    (listConds cfg lschema ctx p =
      applySearch cfg
        ((match p.whereExtra with | some w => [w] | none => []) ++
          parseFilters cfg.allowedFilters (validatedList lschema ctx p).filters)
        (validatedList lschema ctx p).search
        ++ scopeConds cfg ctx
        ++ softConds cfg (validatedList lschema ctx p).includeDeleted) ∧
    (updateConds cfg ctx id =
      [idCond id] ++ scopeConds cfg ctx ++ softConds cfg false) ∧
    (idScopeConds cfg ctx id = [idCond id] ++ scopeConds cfg ctx) ∧
    (bulkIdConds cfg ctx ids = [inCond ids] ++ scopeConds cfg ctx) ∧
    (createOp cfg data (some c) db =
      createOp { cfg with scopeFilters := sf } data (some { c with scope := sc }) db) ∧
    (bulkCreateOp cfg datas (some c) db =
      bulkCreateOp { cfg with scopeFilters := sf } datas
        (some { c with scope := sc }) db) := by
  exact ⟨rfl, rfl, rfl, rfl, rfl, rfl, rfl⟩

theorem updateSetWhere_of_none (w : Option SQLExpr) (sets : List (String × JVal)) :
    ∀ db : List Row, (∀ r ∈ db, evalWhere r w = false) →
      updateSetWhere db w sets = db
  | [], _ => rfl
  | r :: rest, h => by
    have hr := h r (by simp)
    have ih := updateSetWhere_of_none w sets rest
      (fun x hx => h x (List.mem_cons_of_mem r hx))
    simp only [updateSetWhere, List.map_cons, hr, Bool.false_eq_true, if_false]
    simp only [updateSetWhere] at ih
    rw [ih]

/-- C1 (as stated, refuted): a row whose id exists but which every scope
filter excludes: `update`'s write matches nothing, yet the operation
returns the unmodified row as a success, because the post-write
re-select uses the id alone; and `restore` under the same exclusion
returns the value `{success:false}` instead of raising an error. -/
theorem C1_counterexample :
    (∀ r ∈ ([[("id", JVal.vint 1), ("tenantId", JVal.vstr "A"),
        ("name", JVal.vstr "old")]] : List Row),
      evalWhere r (whereOf (updateConds
        { scopeFilters := [("tenantId", fun v _ => some (.cond "tenantId" .ceq v))] }
        (some { scope := [("tenantId", JVal.vstr "B")] }) (JVal.vint 1))) = false) ∧
    (updateOp
        { scopeFilters := [("tenantId", fun v _ => some (.cond "tenantId" .ceq v))] }
        (JVal.vint 1) [("name", JVal.vstr "new")]
        (some { scope := [("tenantId", JVal.vstr "B")] })
        [[("id", JVal.vint 1), ("tenantId", JVal.vstr "A"),
          ("name", JVal.vstr "old")]]).result =
      .ok (some [("id", JVal.vint 1), ("tenantId", JVal.vstr "A"),
        ("name", JVal.vstr "old")]) ∧
    (restoreOp
        { scopeFilters := [("tenantId", fun v _ => some (.cond "tenantId" .ceq v))],
          softDelete := some { field := "deletedAt" } }
        (JVal.vint 1) (some { scope := [("tenantId", JVal.vstr "B")] })
        [[("id", JVal.vint 1), ("tenantId", JVal.vstr "A"),
          ("name", JVal.vstr "old")]]).result = .ok ⟨false⟩ := by
  refine ⟨by decide, rfl, rfl⟩

/-- C1 (amended): with a nonempty effective payload, when the composed
update predicate (id, scope filters, soft-delete visibility) matches no
row, the store is unchanged and `update` returns the first row found by
id alone — raising the not-found error only when no row with that id
exists at all; `restore` (soft delete configured) never raises
not-found: its result is `{success: m}` where `m` says whether the
composed id+scope predicate matched any row. -/
theorem C1_not_found_behaviour (cfg : Cfg) (id : JVal) (updates : Row)
    (ctx : Option Ctx) (db : List Row) (sd : SoftDeleteCfg)
    (hne : (updateTransformed cfg ctx updates).isEmpty = false)
    (hmiss : ∀ r ∈ db, evalWhere r (whereOf (updateConds cfg ctx id)) = false)
    (hsd : cfg.softDelete = some sd) :
    ((updateOp cfg id updates ctx db).db = db) ∧
    ((updateOp cfg id updates ctx db).result =
      match (selectWhere db (some (idCond id))).head? with
      | some r => .ok (some r)
      | none => .error "Record with id not found") ∧
    ((restoreOp cfg id ctx db).result =
      .ok ⟨!(selectWhere db (whereOf (idScopeConds cfg ctx id))).isEmpty⟩) := by
  have hdb : updateSetWhere db (whereOf (updateConds cfg ctx id))
      (updateTransformed cfg ctx updates) = db :=
    updateSetWhere_of_none _ _ db hmiss
  refine ⟨?_, ?_, ?_⟩
  · unfold updateOp
    simp only [hne, Bool.false_eq_true, if_false, hdb]
    cases (selectWhere db (some (idCond id))).head? <;> rfl
  · unfold updateOp
    simp only [hne, Bool.false_eq_true, if_false, hdb]
    cases (selectWhere db (some (idCond id))).head? <;> rfl
  · unfold restoreOp
    simp only [hsd]

/-- C1 witness: the amended behaviour at a concrete scope-excluded row. -/
theorem C1_not_found_behaviour_witness :
    ((updateOp
        { scopeFilters := [("tenantId", fun v _ => some (.cond "tenantId" .ceq v))],
          softDelete := some { field := "deletedAt" } }
        (JVal.vint 1) [("name", JVal.vstr "new")]
        (some { scope := [("tenantId", JVal.vstr "B")] })
        [[("id", JVal.vint 1), ("tenantId", JVal.vstr "A"),
          ("name", JVal.vstr "old")]]).db =
      [[("id", JVal.vint 1), ("tenantId", JVal.vstr "A"),
        ("name", JVal.vstr "old")]]) ∧
    ((updateOp
        { scopeFilters := [("tenantId", fun v _ => some (.cond "tenantId" .ceq v))],
          softDelete := some { field := "deletedAt" } }
        (JVal.vint 1) [("name", JVal.vstr "new")]
        (some { scope := [("tenantId", JVal.vstr "B")] })
        [[("id", JVal.vint 1), ("tenantId", JVal.vstr "A"),
          ("name", JVal.vstr "old")]]).result =
      match (selectWhere [[("id", JVal.vint 1), ("tenantId", JVal.vstr "A"),
          ("name", JVal.vstr "old")]] (some (idCond (JVal.vint 1)))).head? with
      | some r => .ok (some r)
      | none => .error "Record with id not found") ∧
    ((restoreOp
        { scopeFilters := [("tenantId", fun v _ => some (.cond "tenantId" .ceq v))],
          softDelete := some { field := "deletedAt" } }
        (JVal.vint 1) (some { scope := [("tenantId", JVal.vstr "B")] })
        [[("id", JVal.vint 1), ("tenantId", JVal.vstr "A"),
          ("name", JVal.vstr "old")]]).result =
      .ok ⟨!(selectWhere [[("id", JVal.vint 1), ("tenantId", JVal.vstr "A"),
          ("name", JVal.vstr "old")]]
        (whereOf (idScopeConds
          { scopeFilters := [("tenantId", fun v _ => some (.cond "tenantId" .ceq v))],
            softDelete := some { field := "deletedAt" } }
          (some { scope := [("tenantId", JVal.vstr "B")] })
          (JVal.vint 1)))).isEmpty⟩) :=
  C1_not_found_behaviour
    { scopeFilters := [("tenantId", fun v _ => some (.cond "tenantId" .ceq v))],
      softDelete := some { field := "deletedAt" } }
    (JVal.vint 1) [("name", JVal.vstr "new")]
    (some { scope := [("tenantId", JVal.vstr "B")] })
    [[("id", JVal.vint 1), ("tenantId", JVal.vstr "A"), ("name", JVal.vstr "old")]]
    { field := "deletedAt" } rfl (by decide) rfl

mutual
/-- Whether a condition tree tests the given field. -/
def mentionsF : SQLExpr → String → Bool
  | .cond f _ _, g => f == g
  | .sand xs, g => mentionsL xs g
  | .sor xs, g => mentionsL xs g

def mentionsL : List SQLExpr → String → Bool
  | [], _ => false
  | c :: cs, g => mentionsF c g || mentionsL cs g
end

theorem rowGet_setField_ne (r : Row) (f g : String) (v : JVal) (h : f ≠ g) :
    rowGet (setField r f v) g = rowGet r g := by
  induction r with
  | nil => simp [setField, rowGet, h]
  | cons kv rest ih =>
    obtain ⟨k, w⟩ := kv
    by_cases hk : k = f
    · subst hk
      simp [setField, rowGet, h]
    · simp [setField, rowGet, hk, ih]

theorem setField_setField (r : Row) (f : String) (v v2 : JVal) :
    setField (setField r f v) f v2 = setField r f v2 := by
  induction r with
  | nil => simp [setField]
  | cons kv rest ih =>
    obtain ⟨k, w⟩ := kv
    by_cases hk : k = f
    · simp [setField, hk]
    · simp [setField, hk, ih]

mutual
theorem evalSQL_setField_not_mentions (r : Row) (f : String) (v : JVal) :
    ∀ c : SQLExpr, mentionsF c f = false →
      evalSQL (setField r f v) c = evalSQL r c
  | .cond g op w, h => by
    have hg : f ≠ g := by
      intro e
      subst e
      simp [mentionsF] at h
    unfold evalSQL
    unfold evalCond
    rw [rowGet_setField_ne r f g v hg]
  | .sand xs, h => by
    unfold evalSQL
    exact evalAllL_setField_not_mentions r f v xs (by simpa [mentionsF] using h)
  | .sor xs, h => by
    unfold evalSQL
    exact evalAnyL_setField_not_mentions r f v xs (by simpa [mentionsF] using h)

theorem evalAllL_setField_not_mentions (r : Row) (f : String) (v : JVal) :
    ∀ cs : List SQLExpr, mentionsL cs f = false →
      evalAllL (setField r f v) cs = evalAllL r cs
  | [], _ => rfl
  | c :: cs, h => by
    have h12 := Bool.or_eq_false_iff.mp (by simpa [mentionsL] using h)
    unfold evalAllL
    rw [evalSQL_setField_not_mentions r f v c h12.1,
      evalAllL_setField_not_mentions r f v cs h12.2]

theorem evalAnyL_setField_not_mentions (r : Row) (f : String) (v : JVal) :
    ∀ cs : List SQLExpr, mentionsL cs f = false →
      evalAnyL (setField r f v) cs = evalAnyL r cs
  | [], _ => rfl
  | c :: cs, h => by
    have h12 := Bool.or_eq_false_iff.mp (by simpa [mentionsL] using h)
    unfold evalAnyL
    rw [evalSQL_setField_not_mentions r f v c h12.1,
      evalAnyL_setField_not_mentions r f v cs h12.2]
end

theorem evalWhere_whereOf_setField (r : Row) (f : String) (v : JVal) :
    ∀ conds : List SQLExpr, mentionsL conds f = false →
      evalWhere (setField r f v) (whereOf conds) = evalWhere r (whereOf conds)
  | [], _ => rfl
  | [c], h => by
    have h1 : mentionsF c f = false := by simpa [mentionsL] using h
    simpa [whereOf, evalWhere] using evalSQL_setField_not_mentions r f v c h1
  | c1 :: c2 :: cs, h => by
    have hw : whereOf (c1 :: c2 :: cs) = some (.sand (c1 :: c2 :: cs)) := by
      simp [whereOf]
    rw [hw]
    simpa [evalWhere, evalSQL] using
      evalAllL_setField_not_mentions r f v (c1 :: c2 :: cs) h

theorem updateSetWhere_idem (w : Option SQLExpr) (f : String) (dv : JVal)
    (hinv : ∀ r : Row, evalWhere (setField r f dv) w = evalWhere r w) :
    ∀ db : List Row,
      updateSetWhere (updateSetWhere db w [(f, dv)]) w [(f, dv)] =
        updateSetWhere db w [(f, dv)]
  | [] => rfl
  | r :: rest => by
    have ih := updateSetWhere_idem w f dv hinv rest
    simp only [updateSetWhere, setFields, List.foldl_cons, List.foldl_nil] at ih ⊢
    cases hr : evalWhere r w
    · simp only [List.map_cons, hr, Bool.false_eq_true, if_false]
      rw [ih]
    · simp only [List.map_cons, hinv r, hr, if_true, setField_setField]
      rw [ih]

/-- C9: under a configured soft delete (with a static `deletedValue` and
scope/id conditions not testing the marker field), `deleteOne` is
idempotent: both calls return `{success:true}` with no error, the second
call leaves the store exactly as the first (every matched row is
re-marked with the same `deletedValue`), and a row matched by the first
call — now carrying the marker — still matches the second call's
predicate, because `deleteOne` composes no soft-delete visibility
condition. -/
theorem C9_deleteOne_idempotent (cfg : Cfg) (sd : SoftDeleteCfg) (now1 now2 : Int)
    (id : JVal) (ctx : Option Ctx) (db : List Row) (dv : JVal)
    (hsd : cfg.softDelete = some sd)
    (hdv : sd.deletedValue = some dv)
    (hdvu : isUndef dv = false)
    (hm : mentionsL (idScopeConds cfg ctx id) sd.field = false) :
    ((deleteOneOp cfg now1 id ctx db).result = .ok ⟨true⟩) ∧
    ((deleteOneOp cfg now2 id ctx (deleteOneOp cfg now1 id ctx db).db).result =
      .ok ⟨true⟩) ∧
    ((deleteOneOp cfg now2 id ctx (deleteOneOp cfg now1 id ctx db).db).db =
      (deleteOneOp cfg now1 id ctx db).db) ∧
    (∀ r ∈ db, evalWhere r (whereOf (idScopeConds cfg ctx id)) = true →
      setField r sd.field dv ∈ (deleteOneOp cfg now1 id ctx db).db ∧
      evalWhere (setField r sd.field dv)
        (whereOf (idScopeConds cfg ctx id)) = true) := by
  have hdel : ∀ now : Int, sdDeleted sd now = dv := by
    intro now
    unfold sdDeleted
    rw [hdv]
    cases dv <;> simp_all [isUndef]
  have hinv : ∀ r : Row,
      evalWhere (setField r sd.field dv) (whereOf (idScopeConds cfg ctx id)) =
        evalWhere r (whereOf (idScopeConds cfg ctx id)) :=
    fun r => evalWhere_whereOf_setField r sd.field dv (idScopeConds cfg ctx id) hm
  have hop : ∀ (now : Int) (dbx : List Row), deleteOneOp cfg now id ctx dbx =
      { result := .ok ⟨true⟩,
        events := [.upd (whereOf (idScopeConds cfg ctx id)) [(sd.field, dv)]],
        db := updateSetWhere dbx (whereOf (idScopeConds cfg ctx id))
          [(sd.field, dv)] } := by
    intro now dbx
    unfold deleteOneOp
    simp only [hsd, hdel]
  refine ⟨?_, ?_, ?_, ?_⟩
  · simp only [hop]
  · simp only [hop]
  · simp only [hop]
    exact updateSetWhere_idem _ _ _ hinv db
  · intro r hr hmatch
    refine ⟨?_, ?_⟩
    · simp only [hop]
      have hg : (if evalWhere r (whereOf (idScopeConds cfg ctx id)) = true
          then setFields r [(sd.field, dv)] else r) = setField r sd.field dv := by
        rw [hmatch]
        simp [setFields]
      exact List.mem_map.mpr ⟨r, hr, hg⟩
    · rw [hinv r]
      exact hmatch

/-- C9 witness: idempotent double delete of a stored row. -/
theorem C9_deleteOne_idempotent_witness :
    ((deleteOneOp
        { softDelete := some { field := "deletedAt", deletedValue := some (.vdate 99) } }
        0 (JVal.vint 1) none [[("id", JVal.vint 1)]]).result = .ok ⟨true⟩) ∧
    ((deleteOneOp
        { softDelete := some { field := "deletedAt", deletedValue := some (.vdate 99) } }
        1 (JVal.vint 1) none
        (deleteOneOp
          { softDelete := some { field := "deletedAt", deletedValue := some (.vdate 99) } }
          0 (JVal.vint 1) none [[("id", JVal.vint 1)]]).db).db =
      (deleteOneOp
        { softDelete := some { field := "deletedAt", deletedValue := some (.vdate 99) } }
        0 (JVal.vint 1) none [[("id", JVal.vint 1)]]).db) :=
  ⟨(C9_deleteOne_idempotent
      { softDelete := some { field := "deletedAt", deletedValue := some (.vdate 99) } }
      { field := "deletedAt", deletedValue := some (.vdate 99) } 0 1 (JVal.vint 1) none
      [[("id", JVal.vint 1)]] (.vdate 99) rfl rfl rfl (by decide)).1,
   (C9_deleteOne_idempotent
      { softDelete := some { field := "deletedAt", deletedValue := some (.vdate 99) } }
      { field := "deletedAt", deletedValue := some (.vdate 99) } 0 1 (JVal.vint 1) none
      [[("id", JVal.vint 1)]] (.vdate 99) rfl rfl rfl (by decide)).2.2.1⟩

theorem length_filter_le_imp {α : Type} (p q : α → Bool) (l : List α)
    (h : ∀ a, p a = true → q a = true) :
    (l.filter p).length ≤ (l.filter q).length := by
  induction l with
  | nil => simp
  | cons a t ih =>
    by_cases hp : p a = true
    · have hq := h a hp
      simp only [List.filter_cons, hp, hq, if_true, List.length_cons]
      omega
    · have hp2 : p a = false := by simpa using hp
      by_cases hq : q a = true <;>
        simp only [List.filter_cons, hp2, hq, Bool.false_eq_true, if_false, if_true,
          List.length_cons] <;> omega

theorem length_filter_lt_imp {α : Type} (p q : α → Bool) (l : List α)
    (h : ∀ a, p a = true → q a = true) (x : α) (hx : x ∈ l)
    (hqx : q x = true) (hpx : p x = false) :
    (l.filter p).length < (l.filter q).length := by
  induction l with
  | nil => simp at hx
  | cons a t ih =>
    rcases List.mem_cons.mp hx with rfl | hxt
    · have hle := length_filter_le_imp p q t h
      simp only [List.filter_cons, hpx, hqx, Bool.false_eq_true, if_false, if_true,
        List.length_cons]
      omega
    · have hlt := ih hxt
      by_cases hp : p a = true
      · have hq := h a hp
        simp only [List.filter_cons, hp, hq, if_true, List.length_cons]
        omega
      · have hp2 : p a = false := by simpa using hp
        by_cases hq : q a = true <;>
          simp only [List.filter_cons, hp2, hq, Bool.false_eq_true, if_false, if_true,
            List.length_cons] <;> omega

theorem length_filter_not_add (p : Row → Bool) (l : List Row) :
    (l.filter (fun a => !p a)).length + (l.filter p).length = l.length := by
  induction l with
  | nil => rfl
  | cons a t ih =>
    cases hp : p a <;>
      simp only [List.filter_cons, hp, Bool.not_false, Bool.not_true,
        Bool.false_eq_true, if_false, if_true, List.length_cons] <;> omega

theorem evalWhere_whereOf_cons_head (r : Row) (c : SQLExpr) (cs : List SQLExpr)
    (h : evalWhere r (whereOf (c :: cs)) = true) : evalSQL r c = true := by
  cases cs with
  | nil => simpa [whereOf, evalWhere] using h
  | cons c2 cs2 =>
    have hall : evalAllL r (c :: c2 :: cs2) = true := by
      have hw : whereOf (c :: c2 :: cs2) = some (.sand (c :: c2 :: cs2)) := by
        simp [whereOf]
      rw [hw] at h
      simpa [evalWhere, evalSQL] using h
    simp only [evalAllL, Bool.and_eq_true] at hall
    exact hall.1

/-- C10: the count `bulkDelete` returns is the number of rows whose id is
among the supplied ids, counted before scope filters (the existence
SELECT carries no scope conditions); the write itself is scoped, so
under a hard delete the rows removed are exactly those matching
ids+scope, and whenever some row matches the ids but is excluded by a
scope filter, the rows matching the scoped write predicate are strictly
fewer than the returned count. -/
theorem C10_bulkDelete_count_pre_scope (cfg : Cfg) (now : Int) (ids : List JVal)
    (ctx : Option Ctx) (db : List Row) :
    ((bulkDeleteOp cfg now ids ctx db).result =
      .ok ⟨true, (db.filter (fun r => evalSQL r (inCond ids))).length⟩) ∧
    (cfg.softDelete = none →
      (bulkDeleteOp cfg now ids ctx db).db.length +
        (db.filter (fun r =>
          evalWhere r (whereOf (bulkIdConds cfg ctx ids)))).length = db.length) ∧
    ((∃ r ∈ db, evalSQL r (inCond ids) = true ∧
        evalWhere r (whereOf (bulkIdConds cfg ctx ids)) = false) →
      (db.filter (fun r =>
        evalWhere r (whereOf (bulkIdConds cfg ctx ids)))).length <
        (db.filter (fun r => evalSQL r (inCond ids))).length) := by
  have himp : ∀ r : Row, evalWhere r (whereOf (bulkIdConds cfg ctx ids)) = true →
      evalSQL r (inCond ids) = true :=
    fun r h => evalWhere_whereOf_cons_head r (inCond ids) (scopeConds cfg ctx) h
  refine ⟨?_, ?_, ?_⟩
  · unfold bulkDeleteOp
    by_cases he : (selectWhere db (some (inCond ids))).isEmpty = true
    · have h0 : selectWhere db (some (inCond ids)) = [] := List.isEmpty_iff.mp he
      have h0' : (db.filter (fun r => evalSQL r (inCond ids))).length = 0 := by
        have : db.filter (fun r => evalSQL r (inCond ids)) = [] := h0
        rw [this]
        rfl
      simp only [he, if_true, h0']
    · have he2 : (selectWhere db (some (inCond ids))).isEmpty = false := by
        simpa using he
      cases hsd : cfg.softDelete <;>
        simp only [he2, Bool.false_eq_true, if_false, hsd] <;> rfl
  · intro hsd
    unfold bulkDeleteOp
    by_cases he : (selectWhere db (some (inCond ids))).isEmpty = true
    · have h0 : selectWhere db (some (inCond ids)) = [] := List.isEmpty_iff.mp he
      have hle := length_filter_le_imp
        (fun r => evalWhere r (whereOf (bulkIdConds cfg ctx ids)))
        (fun r => evalSQL r (inCond ids)) db (fun a => himp a)
      have h0' : (db.filter (fun r => evalSQL r (inCond ids))).length = 0 := by
        have : db.filter (fun r => evalSQL r (inCond ids)) = [] := h0
        rw [this]
        rfl
      simp only [he, if_true]
      omega
    · have he2 : (selectWhere db (some (inCond ids))).isEmpty = false := by
        simpa using he
      simp only [he2, Bool.false_eq_true, if_false, hsd]
      exact length_filter_not_add
        (fun r => evalWhere r (whereOf (bulkIdConds cfg ctx ids))) db
  · rintro ⟨r, hr, hq, hp⟩
    exact length_filter_lt_imp _ _ db (fun a => himp a) r hr hq hp

/-- C10 witness: two rows share the supplied ids but only one passes the
tenant scope filter; the returned count is 2 while the scoped write
matches a single row. -/
theorem C10_bulkDelete_count_pre_scope_witness :
    ((bulkDeleteOp
        { scopeFilters := [("tenantId", fun v _ => some (.cond "tenantId" .ceq v))] }
        0 [JVal.vint 1, JVal.vint 2]
        (some { scope := [("tenantId", JVal.vstr "B")] })
        [[("id", JVal.vint 1), ("tenantId", JVal.vstr "A")],
         [("id", JVal.vint 2), ("tenantId", JVal.vstr "B")]]).result =
      .ok ⟨true, ([[("id", JVal.vint 1), ("tenantId", JVal.vstr "A")],
         [("id", JVal.vint 2), ("tenantId", JVal.vstr "B")]].filter
          (fun r => evalSQL r (inCond [JVal.vint 1, JVal.vint 2]))).length⟩) ∧
    (([[("id", JVal.vint 1), ("tenantId", JVal.vstr "A")],
       [("id", JVal.vint 2), ("tenantId", JVal.vstr "B")]].filter
        (fun r => evalWhere r (whereOf (bulkIdConds
          { scopeFilters := [("tenantId", fun v _ => some (.cond "tenantId" .ceq v))] }
          (some { scope := [("tenantId", JVal.vstr "B")] })
          [JVal.vint 1, JVal.vint 2])))).length <
      ([[("id", JVal.vint 1), ("tenantId", JVal.vstr "A")],
        [("id", JVal.vint 2), ("tenantId", JVal.vstr "B")]].filter
        (fun r => evalSQL r (inCond [JVal.vint 1, JVal.vint 2]))).length) :=
  ⟨(C10_bulkDelete_count_pre_scope
      { scopeFilters := [("tenantId", fun v _ => some (.cond "tenantId" .ceq v))] }
      0 [JVal.vint 1, JVal.vint 2]
      (some { scope := [("tenantId", JVal.vstr "B")] })
      [[("id", JVal.vint 1), ("tenantId", JVal.vstr "A")],
       [("id", JVal.vint 2), ("tenantId", JVal.vstr "B")]]).1,
   (C10_bulkDelete_count_pre_scope
      { scopeFilters := [("tenantId", fun v _ => some (.cond "tenantId" .ceq v))] }
      0 [JVal.vint 1, JVal.vint 2]
      (some { scope := [("tenantId", JVal.vstr "B")] })
      [[("id", JVal.vint 1), ("tenantId", JVal.vstr "A")],
       [("id", JVal.vint 2), ("tenantId", JVal.vstr "B")]]).2.2 (by decide)⟩
